import Mathlib

/-!
Verification of the duplex streaming session manager in
`gemini_live_advanced.py` (class `AdvancedHebrewDoll`).

The Python code is shallowly embedded: each coroutine becomes a Lean
function over an explicit trace of the external events it reacts to
(session outcomes, response events, readings of the mutable
`is_running` flag), and the mutable fields (`connection_attempts`,
the audio streams, the printed diagnostics) become explicit state.
-/

/-- The `app` section of `CONFIG` used by `AdvancedHebrewDoll.run`
(`config.py`, `APP_CONFIG`): the auto-reconnect flag, the maximum
number of reconnect attempts, and the delay between attempts. -/
structure AppConfig where
  auto_reconnect : Bool
  max_reconnect_attempts : Nat
  reconnect_delay : Nat
deriving DecidableEq

/-- The kind of a Python exception escaping `run_session`, as the
`except` clauses of `AdvancedHebrewDoll.run` distinguish them: a
`KeyboardInterrupt` is re-raised, every other exception falls into the
generic `except Exception` arm.  The Boolean on `generic` records
whether the underlying error is a credential rejection from the API
client; the code never inspects it (there is no narrower `except`
clause), so behavior cannot depend on it. -/
inductive ExcKind where
  | keyboardInterrupt : ExcKind
  | generic : (isCredentialError : Bool) → ExcKind
deriving DecidableEq

/-- Outcome of one call to `AdvancedHebrewDoll.run_session`.
`raised reset k`: an exception of kind `k` escaped; `reset` records
whether the line `self.connection_attempts = 0` (reached only after
`client.aio.live.connect` succeeds and the system instruction is
sent) had run first.  `normal` means `asyncio.gather` returned, which
also implies the reset line ran. -/
inductive SessionResult where
  | normal : SessionResult
  | raised : (reset : Bool) → (k : ExcKind) → SessionResult
deriving DecidableEq

/-- Value of `self.connection_attempts` once `run_session` has
finished (normally or by exception), given its value `a` on entry:
it is reset to `0` exactly when the connect succeeded, and untouched
when the exception preceded the reset line. -/
def attemptsAfterSession (a : Nat) : SessionResult → Nat
  | .normal => 0
  | .raised true _ => 0
  | .raised false _ => a

/-- How one iteration of the `while self.is_running` loop in
`AdvancedHebrewDoll.run` ends. -/
inductive StepOut where
  | next : (attempts : Nat) → StepOut
  | retry : (attempts : Nat) → (delay : Nat) → StepOut
  | exit : (attempts : Nat) → (t : ExcKind) → StepOut
deriving DecidableEq

/-- One iteration of the reconnect loop in `AdvancedHebrewDoll.run`
(lines 293-317), given the current `connection_attempts` and the
outcome of `run_session`:
* normal return: back to the `while` test;
* `KeyboardInterrupt`: re-raised (`raise` at line 298);
* other exception: if `auto_reconnect` is off, re-raised; otherwise
  `connection_attempts += 1`, and if it now exceeds
  `max_reconnect_attempts` the exception is re-raised, else the loop
  sleeps `reconnect_delay` and retries. -/
def runStep (cfg : AppConfig) (attempts : Nat) (res : SessionResult) : StepOut :=
  match res with
  | .normal => .next (attemptsAfterSession attempts res)
  | .raised r k =>
    let a := attemptsAfterSession attempts (.raised r k)
    match k with
    | .keyboardInterrupt => .exit a .keyboardInterrupt
    | .generic b =>
      if !cfg.auto_reconnect then .exit a (.generic b)
      else if a + 1 > cfg.max_reconnect_attempts then .exit (a + 1) (.generic b)
      else .retry (a + 1) cfg.reconnect_delay

/-- Whether a loop-iteration outcome is a retry (the reconnect path
that sleeps and re-enters the loop). -/
def StepOut.isRetry : StepOut → Bool
  | .retry _ _ => true
  | _ => false

/-- How the `try` block around the reconnect loop ends.  `pending`:
the supplied trace of session outcomes ran out with the loop still
running. -/
inductive Term where
  | pending : Term
  | interrupted : Term
  | fatal : Term
deriving DecidableEq

/-- Which outer `except` arm of `AdvancedHebrewDoll.run` an exception
escaping the loop reaches: `KeyboardInterrupt` hits line 319
("Shutting down gracefully"), everything else hits line 321
("Fatal error"). -/
def termOf : ExcKind → Term
  | .keyboardInterrupt => .interrupted
  | .generic _ => .fatal

/-- The reconnect loop of `AdvancedHebrewDoll.run`, driven by a finite
trace of `run_session` outcomes.  Returns the final
`connection_attempts`, the list of reconnect delays slept (in order,
one before each retry), and how the loop ended. -/
def runLoop (cfg : AppConfig) (attempts : Nat) :
    List SessionResult → Nat × List Nat × Term
  | [] => (attempts, [], .pending)
  | res :: rest =>
    match runStep cfg attempts res with
    | .next a => runLoop cfg a rest
    | .retry a d =>
      let (a', ds, t) := runLoop cfg a rest
      (a', d :: ds, t)
    | .exit a k => (a, [], termOf k)

/-- Shorthand for a `run_session` call whose connect failed with an
ordinary (non-credential) exception. -/
def connectFail : SessionResult := .raised false (.generic false)

theorem runLoop_replicate_fail (cfg : AppConfig)
    (hauto : cfg.auto_reconnect = true) :
    ∀ k a, cfg.max_reconnect_attempts + 1 ≤ a + k →
      a ≤ cfg.max_reconnect_attempts →
      runLoop cfg a (List.replicate k connectFail) =
        (cfg.max_reconnect_attempts + 1,
         List.replicate (cfg.max_reconnect_attempts - a) cfg.reconnect_delay,
         .fatal) := by
  intro k
  induction k with
  | zero =>
    intro a h1 h2
    omega
  | succ n ih =>
    intro a h1 h2
    rw [List.replicate_succ]
    by_cases hlt : a + 1 > cfg.max_reconnect_attempts
    · have ha : a = cfg.max_reconnect_attempts := by omega
      simp [runLoop, runStep, connectFail, attemptsAfterSession, hauto, hlt, ha, termOf]
    · have h2' : a + 1 ≤ cfg.max_reconnect_attempts := by omega
      have := ih (a + 1) (by omega) h2'
      simp only [runLoop, runStep, connectFail, attemptsAfterSession, hauto, hlt]
      simp only [Bool.not_true, Bool.false_eq_true, if_false, gt_iff_lt,
        if_neg (by omega : ¬ cfg.max_reconnect_attempts < a + 1)]
      simp only [connectFail] at this
      rw [this]
      have : cfg.max_reconnect_attempts - a =
          (cfg.max_reconnect_attempts - (a + 1)) + 1 := by omega
      rw [this, List.replicate_succ]

/-- C1: with auto-reconnect on and `maxReconnectAttempts = N`, a trace
of `N + 1` consecutive connect failures produces exactly `N` retries,
each preceded by a sleep of `reconnect_delay`, and the `(N+1)`-th
failure exits the loop into the fatal arm; moreover a single failed
iteration retries iff the incremented counter is at most `N`. -/
theorem bounded_reconnection (cfg : AppConfig)
    (hauto : cfg.auto_reconnect = true) :
    runLoop cfg 0 (List.replicate (cfg.max_reconnect_attempts + 1) connectFail) =
      (cfg.max_reconnect_attempts + 1,
       List.replicate cfg.max_reconnect_attempts cfg.reconnect_delay,
       .fatal) ∧
    ∀ a r b, (runStep cfg a (.raised r (.generic b))).isRetry =
      decide (attemptsAfterSession a (.raised r (.generic b)) + 1 ≤
        cfg.max_reconnect_attempts) := by
  constructor
  · have := runLoop_replicate_fail cfg hauto (cfg.max_reconnect_attempts + 1) 0
      (by omega) (by omega)
    simpa using this
  · intro a r b
    by_cases h : attemptsAfterSession a (.raised r (.generic b)) + 1 ≤
        cfg.max_reconnect_attempts
    · simp [runStep, hauto, StepOut.isRetry, h, Nat.not_lt.mpr h]
    · simp only [runStep, hauto, Bool.not_true, Bool.false_eq_true, if_false]
      rw [if_pos (by omega)]
      simp [StepOut.isRetry, h]

/-- C1 witness. -/
theorem bounded_reconnection_witness :
    runLoop ⟨true, 2, 7⟩ 0 (List.replicate 3 connectFail) =
      (3, List.replicate 2 7, .fatal) ∧
    ∀ a r b, (runStep ⟨true, 2, 7⟩ a (.raised r (.generic b))).isRetry =
      decide (attemptsAfterSession a (.raised r (.generic b)) + 1 ≤ 2) :=
  bounded_reconnection ⟨true, 2, 7⟩ rfl

/-- C2: the attempt counter resets to 0 exactly on a successful
connect: after a session whose connect succeeded the counter is 0
whatever it was before; a session whose connect failed leaves it
untouched; and the failure following a success is counted as attempt
1 (retry with counter 1, not the previous count plus one), as the
concrete trace `[connect-failure, post-connect failure]` from counter
0 shows: it ends with counter 1 after two retries. -/
theorem reset_on_success (cfg : AppConfig) (hauto : cfg.auto_reconnect = true)
    (hmax : 1 ≤ cfg.max_reconnect_attempts) :
    (∀ a k, attemptsAfterSession a (.raised true k) = 0) ∧
    (∀ a k, attemptsAfterSession a (.raised false k) = a) ∧
    (∀ a b, runStep cfg a (.raised true (.generic b)) =
      .retry 1 cfg.reconnect_delay) ∧
    runLoop cfg 0 [connectFail, .raised true (.generic false)] =
      (1, [cfg.reconnect_delay, cfg.reconnect_delay], .pending) := by
  refine ⟨fun a k => rfl, fun a k => rfl, ?_, ?_⟩
  · intro a b
    simp only [runStep, attemptsAfterSession, hauto, Bool.not_true,
      Bool.false_eq_true, if_false]
    rw [if_neg (by omega)]
  · have hne : cfg.max_reconnect_attempts ≠ 0 := by omega
    simp [runLoop, runStep, connectFail, attemptsAfterSession, hauto, termOf,
      Nat.lt_one_iff, hne]

/-- C2 witness. -/
theorem reset_on_success_witness :
    ((∀ a k, attemptsAfterSession a (.raised true k) = 0) ∧
    (∀ a k, attemptsAfterSession a (.raised false k) = a) ∧
    (∀ a b, runStep ⟨true, 3, 5⟩ a (.raised true (.generic b)) =
      .retry 1 5) ∧
    runLoop ⟨true, 3, 5⟩ 0 [connectFail, .raised true (.generic false)] =
      (1, [5, 5], .pending)) :=
  reset_on_success ⟨true, 3, 5⟩ rfl (by decide)

/-- C3 counterexample: in the code there is no fatal error class beyond
`KeyboardInterrupt` — a credential-rejection error raised by the API
client is caught by the generic `except Exception` arm and handed to
the reconnect policy, which retries it (here: attempt counter 0,
`max_reconnect_attempts = 3`, so the loop sleeps 5 seconds and
reconnects instead of terminating immediately). -/
theorem credential_error_retried :
    runStep ⟨true, 3, 5⟩ 0 (.raised false (.generic true)) = .retry 1 5 ∧
    (runStep ⟨true, 3, 5⟩ 0 (.raised false (.generic true))).isRetry = true := by
  constructor <;> rfl

/-- C3 amended: the only error class that bypasses the reconnect policy
is `KeyboardInterrupt`, distinguished structurally by exception type:
it exits the loop regardless of the attempt count and configuration,
with no retry and no counter increment.  Every other exception —
including a credential rejection — goes through the reconnect policy,
and whether it is retried is independent of the credential flag. -/
theorem keyboard_interrupt_only_bypass :
    (∀ cfg a r, runStep cfg a (.raised r .keyboardInterrupt) =
      .exit (attemptsAfterSession a (.raised r .keyboardInterrupt))
        .keyboardInterrupt) ∧
    (∀ cfg a r, (runStep cfg a (.raised r (.generic true))).isRetry =
      (runStep cfg a (.raised r (.generic false))).isRetry) := by
  constructor
  · intro cfg a r
    rfl
  · intro cfg a r
    simp only [runStep]
    by_cases h : cfg.auto_reconnect
    · simp only [h, Bool.not_true, Bool.false_eq_true, if_false]
      by_cases h2 : attemptsAfterSession a (.raised r (.generic true)) + 1 >
          cfg.max_reconnect_attempts
      · have h3 : attemptsAfterSession a (.raised r (.generic false)) + 1 >
            cfg.max_reconnect_attempts := by
          cases r <;> simpa [attemptsAfterSession] using h2
        rw [if_pos h2, if_pos h3]
        rfl
      · have h3 : ¬ attemptsAfterSession a (.raised r (.generic false)) + 1 >
            cfg.max_reconnect_attempts := by
          cases r <;> simpa [attemptsAfterSession] using h2
        rw [if_neg h2, if_neg h3]
        rfl
    · simp only [Bool.not_eq_true] at h
      simp only [h, Bool.not_false, if_true]
      rfl

/-- C10: with `auto_reconnect` disabled, any non-interrupt session
error is re-raised at once (`raise` at line 305): the loop exits into
the fatal arm, no delay is recorded, and the attempt counter is left
at its post-session value (not incremented). -/
theorem no_reconnect_when_disabled (cfg : AppConfig)
    (hoff : cfg.auto_reconnect = false) :
    ∀ a r b rest,
      runStep cfg a (.raised r (.generic b)) =
        .exit (attemptsAfterSession a (.raised r (.generic b))) (.generic b) ∧
      runLoop cfg a (.raised r (.generic b) :: rest) =
        (attemptsAfterSession a (.raised r (.generic b)), [], .fatal) := by
  intro a r b rest
  constructor
  · simp [runStep, hoff]
  · simp [runLoop, runStep, hoff, termOf]

/-- C10 witness. -/
theorem no_reconnect_when_disabled_witness :
    runStep ⟨false, 3, 5⟩ 2 (.raised false (.generic false)) =
      .exit 2 (.generic false) ∧
    runLoop ⟨false, 3, 5⟩ 2 [.raised false (.generic false)] =
      (2, [], .fatal) :=
  no_reconnect_when_disabled ⟨false, 3, 5⟩ rfl 2 false false []

/-- Exit status of the Python process. -/
inductive ProcExit where
  | zero : ProcExit
  | nonzero : ProcExit
deriving DecidableEq

/-- Observable outcome of one call to `AdvancedHebrewDoll.run`:
whether the `finally` cleanup (`close_audio_streams`) ran, and whether
an exception escaped `run` to its caller. -/
structure RunOutcome where
  cleanupRan : Bool
  raisedOut : Bool
deriving DecidableEq

/-- Embedding of `AdvancedHebrewDoll.run` (lines 282-329).  `setup_audio_streams()`
is called at line 289, *before* the `try` at line 292, so a device
initialization failure escapes `run` without the `finally` cleanup
running.  Once inside the `try`, both `except` arms (lines 319 and
321) catch the escaped exception without re-raising, the `finally`
runs, and `run` returns normally.  `none`: the supplied trace ended
with the loop still running. -/
def runAdvanced (deviceInitFails : Bool) (cfg : AppConfig)
    (trace : List SessionResult) : Option RunOutcome :=
  if deviceInitFails then some ⟨false, true⟩
  else
    match (runLoop cfg 0 trace).2.2 with
    | .pending => none
    | .interrupted => some ⟨true, false⟩
    | .fatal => some ⟨true, false⟩

/-- Embedding of `main` plus the `__main__` guard (lines 332-356): `main` awaits
`doll.run()`; the `__main__` block catches only `KeyboardInterrupt`
(exit 0), so an exception escaping `run` propagates uncaught and the
interpreter exits non-zero, while a normal return of `run` exits 0. -/
def processExit (deviceInitFails : Bool) (cfg : AppConfig)
    (trace : List SessionResult) : Option ProcExit :=
  (runAdvanced deviceInitFails cfg trace).map
    fun o => if o.raisedOut then .nonzero else .zero

/-- C8 counterexample: with `max_reconnect_attempts = 0` a single
session failure exhausts the retries; the escalated error is caught by
`run`'s outer `except Exception` arm and the process exits 0 — not
with the non-zero indication the claim requires.  Conversely a device
initialization failure does exit non-zero, but without the
stream-closing cleanup having run. -/
theorem fatal_exit_code_counterexample :
    processExit false ⟨true, 0, 0⟩ [connectFail] = some ProcExit.zero ∧
    runAdvanced true ⟨true, 0, 0⟩ [] = some ⟨false, true⟩ := by
  constructor <;> rfl

/-- C8 amended: session-level fatal errors (exhausted retries,
auto-reconnect disabled, rejected credentials) are caught inside
`run`'s outer handler: the cleanup runs, no exception escapes, and the
process exits 0.  Only a device initialization failure propagates to
the top level and terminates the process with a non-zero indication,
and in that case the stream-closing cleanup has not run. -/
theorem fatal_errors_swallowed_by_run :
    (∀ cfg trace, (runLoop cfg 0 trace).2.2 = .fatal →
      runAdvanced false cfg trace = some ⟨true, false⟩ ∧
      processExit false cfg trace = some .zero) ∧
    (∀ cfg trace,
      runAdvanced true cfg trace = some ⟨false, true⟩ ∧
      processExit true cfg trace = some .nonzero) := by
  constructor
  · intro cfg trace h
    constructor
    · simp [runAdvanced, h]
    · simp [processExit, runAdvanced, h]
  · intro cfg trace
    constructor <;> rfl

/-- C8 amended witness. -/
theorem fatal_errors_swallowed_by_run_witness :
    runAdvanced false ⟨true, 0, 0⟩ [connectFail] = some ⟨true, false⟩ ∧
    processExit false ⟨true, 0, 0⟩ [connectFail] = some .zero :=
  fatal_errors_swallowed_by_run.1 ⟨true, 0, 0⟩ [connectFail] (by decide)

/-- One response object yielded by `session.receive()` as
`receive_audio` reads it: the transcription text (`response.text`,
empty string standing for Python `None`/empty), the raw audio bytes
(`response.data`, empty list standing for `None`/empty, so Python
truthiness is `data ≠ []`), whether the `output_stream.write` call on
those bytes would raise, and the `response.server_content.turn_complete`
flag (`false` covering a missing `server_content`). -/
structure Response where
  text : String
  data : List Nat
  writeFails : Bool
  turnComplete : Bool
deriving DecidableEq

/-- How one `session.receive()` stream ends when `receive_audio` does
not break out of it first: the async iterator is exhausted normally,
or raises an exception mid-iteration. -/
inductive StreamEnd where
  | normal : StreamEnd
  | raised : StreamEnd
deriving DecidableEq

/-- One call's worth of `session.receive()` output: the responses it
yields, and how it ends if fully consumed. -/
structure Turn where
  responses : List Response
  endsWith : StreamEnd
deriving DecidableEq

/-- Observable state of `receive_audio`: transcriptions printed, audio
chunks written to `output_stream` (in order), number of
`session.receive()` calls made, number of 0.1-second recovery pauses,
and the enclosing object's `connection_attempts` field (which
`receive_audio` can read but never writes). -/
structure PlayState where
  printed : List String
  written : List (List Nat)
  streamsOpened : Nat
  pauses : Nat
  attempts : Nat
deriving DecidableEq

/-- Body of the inner `async for` loop of `receive_audio` (lines
207-226) for one response: print the text when present and
`show_transcription` is set; write `response.data` when truthy,
swallowing a playback write error; return whether `turn_complete`
breaks the inner loop (checked after the write, so a response carrying
both data and `turn_complete` is written first). -/
def processResponse (showTranscription : Bool) (s : PlayState)
    (r : Response) : PlayState × Bool :=
  let s1 :=
    if r.text ≠ "" ∧ showTranscription = true then
      { s with printed := s.printed ++ [r.text] }
    else s
  let s2 :=
    if r.data ≠ [] then
      if r.writeFails then s1
      else { s1 with written := s1.written ++ [r.data] }
    else s1
  (s2, r.turnComplete)

/-- How one pass over a `session.receive()` stream ends:
`completed` (a `turn_complete` broke the inner loop), `exhausted`
(the iterator finished normally), `errored` (it raised). -/
inductive TurnOutcome where
  | completed : TurnOutcome
  | exhausted : TurnOutcome
  | errored : TurnOutcome
deriving DecidableEq

/-- The inner `async for` loop of `receive_audio` over one stream:
process responses in order until a `turn_complete` breaks out or the
stream ends. -/
def runTurn (showTranscription : Bool) (s : PlayState) :
    List Response → StreamEnd → PlayState × TurnOutcome
  | [], .normal => (s, .exhausted)
  | [], .raised => (s, .errored)
  | r :: rs, e =>
    let p := processResponse showTranscription s r
    if p.2 then (p.1, .completed)
    else runTurn showTranscription p.1 rs e

/-- The outcome of one pass over a stream, as a function of the
stream alone (it does not depend on the playback state). -/
def turnOutcome : List Response → StreamEnd → TurnOutcome
  | [], .normal => .exhausted
  | [], .raised => .errored
  | r :: rs, e => if r.turnComplete then .completed else turnOutcome rs e

/-- The prefix of a stream's responses that the inner loop actually
consumes: everything up to and including the first response whose
`turn_complete` flag is set. -/
def processedResponses : List Response → List Response
  | [] => []
  | r :: rs => if r.turnComplete then [r] else r :: processedResponses rs

/-- Calling `session.receive()`: one more stream opened. -/
def openStream (s : PlayState) : PlayState :=
  { s with streamsOpened := s.streamsOpened + 1 }

/-- The `await asyncio.sleep(0.1)` recovery pause at line 232. -/
def pauseBriefly (s : PlayState) : PlayState :=
  { s with pauses := s.pauses + 1 }

/-- The outer `while self.is_running` loop of `receive_audio` (lines
205-234), driven by the successive readings of `is_running` (one per
`while` test plus one per exception handler, in order) and the
successive streams `session.receive()` returns.  A completed or
exhausted stream loops back to the `while` test; a raised stream hits
the handler, which re-checks `is_running`: if still set it pauses and
loops back, otherwise it breaks out.  The trace ends when the flag
readings or the streams run out. -/
def receiveAudio (showTranscription : Bool) :
    PlayState → List Bool → List Turn → PlayState
  | s, [], _ => s
  | s, false :: _, _ => s
  | s, true :: _, [] => s
  | s, true :: flags, t :: ts =>
    let p := runTurn showTranscription (openStream s) t.responses t.endsWith
    match p.2 with
    | .completed => receiveAudio showTranscription p.1 flags ts
    | .exhausted => receiveAudio showTranscription p.1 flags ts
    | .errored =>
      match flags with
      | [] => p.1
      | b :: flags' =>
        if b then receiveAudio showTranscription (pauseBriefly p.1) flags' ts
        else p.1

theorem processResponse_attempts (shw : Bool) (s : PlayState) (r : Response) :
    (processResponse shw s r).1.attempts = s.attempts := by
  simp only [processResponse]
  split_ifs <;> rfl

theorem processResponse_streams (shw : Bool) (s : PlayState) (r : Response) :
    (processResponse shw s r).1.streamsOpened = s.streamsOpened := by
  simp only [processResponse]
  split_ifs <;> rfl

theorem processResponse_pauses (shw : Bool) (s : PlayState) (r : Response) :
    (processResponse shw s r).1.pauses = s.pauses := by
  simp only [processResponse]
  split_ifs <;> rfl

theorem processResponse_written (shw : Bool) (s : PlayState) (r : Response) :
    (processResponse shw s r).1.written =
      s.written ++
        (if r.data ≠ [] ∧ r.writeFails = false then [r.data] else []) := by
  simp only [processResponse]
  split_ifs <;> simp_all

theorem runTurn_snd (shw : Bool) :
    ∀ rs e s, (runTurn shw s rs e).2 = turnOutcome rs e := by
  intro rs
  induction rs with
  | nil => intro e s; cases e <;> rfl
  | cons r rs ih =>
    intro e s
    simp only [runTurn, turnOutcome, processResponse]
    by_cases h : r.turnComplete <;> simp [h, ih]

theorem runTurn_attempts (shw : Bool) :
    ∀ rs e s, (runTurn shw s rs e).1.attempts = s.attempts := by
  intro rs
  induction rs with
  | nil => intro e s; cases e <;> rfl
  | cons r rs ih =>
    intro e s
    simp only [runTurn]
    by_cases h : (processResponse shw s r).2
    · simp [h, processResponse_attempts]
    · simp only [h, if_false, Bool.false_eq_true]
      rw [ih, processResponse_attempts]

theorem runTurn_streams (shw : Bool) :
    ∀ rs e s, (runTurn shw s rs e).1.streamsOpened = s.streamsOpened := by
  intro rs
  induction rs with
  | nil => intro e s; cases e <;> rfl
  | cons r rs ih =>
    intro e s
    simp only [runTurn]
    by_cases h : (processResponse shw s r).2
    · simp [h, processResponse_streams]
    · simp only [h, if_false, Bool.false_eq_true]
      rw [ih, processResponse_streams]

theorem runTurn_pauses (shw : Bool) :
    ∀ rs e s, (runTurn shw s rs e).1.pauses = s.pauses := by
  intro rs
  induction rs with
  | nil => intro e s; cases e <;> rfl
  | cons r rs ih =>
    intro e s
    simp only [runTurn]
    by_cases h : (processResponse shw s r).2
    · simp [h, processResponse_pauses]
    · simp only [h, if_false, Bool.false_eq_true]
      rw [ih, processResponse_pauses]

theorem processResponse_snd (shw : Bool) (s : PlayState) (r : Response) :
    (processResponse shw s r).2 = r.turnComplete := rfl

/-- C4: within one turn, the chunks `receive_audio` writes to
`output_stream` are exactly the non-empty `response.data` fields of
the responses it consumed (up to and including the `turn_complete`
response), in receipt order — assuming no playback write raises. -/
theorem audio_chunk_ordering (shw : Bool) :
    ∀ rs e s, (∀ r ∈ processedResponses rs, r.writeFails = false) →
      (runTurn shw s rs e).1.written =
        s.written ++
          ((processedResponses rs).filter
            (fun r => decide (r.data ≠ []))).map (fun r => r.data) := by
  intro rs
  induction rs with
  | nil =>
    intro e s h
    cases e <;> simp [runTurn, processedResponses]
  | cons r rs ih =>
    intro e s h
    have hr : r.writeFails = false := by
      apply h r
      by_cases hb : r.turnComplete = true <;> simp [processedResponses, hb]
    by_cases hb : r.turnComplete = true
    · simp only [runTurn, processResponse_snd, hb, if_true,
        processedResponses]
      rw [processResponse_written]
      by_cases hd : r.data = [] <;> simp [hd, hr]
    · have h' : ∀ r' ∈ processedResponses rs, r'.writeFails = false := by
        intro r' hm
        apply h r'
        simp [processedResponses, hb, hm]
      simp only [runTurn, processResponse_snd, hb, if_false,
        Bool.false_eq_true, processedResponses]
      rw [ih e _ h', processResponse_written]
      by_cases hd : r.data = [] <;>
        simp [hd, hr, List.filter_cons, List.append_assoc]

/-- C4 witness. -/
theorem audio_chunk_ordering_witness :
    (runTurn true ⟨[], [], 0, 0, 0⟩
        [⟨"hi", [1, 2], false, false⟩, ⟨"", [], false, false⟩,
         ⟨"", [3], false, true⟩, ⟨"", [9], false, false⟩] .normal).1.written =
      [] ++
        ((processedResponses
          [⟨"hi", [1, 2], false, false⟩, ⟨"", [], false, false⟩,
           ⟨"", [3], false, true⟩, ⟨"", [9], false, false⟩]).filter
          (fun r => decide (r.data ≠ []))).map (fun r => r.data) :=
  audio_chunk_ordering true
    [⟨"hi", [1, 2], false, false⟩, ⟨"", [], false, false⟩,
     ⟨"", [3], false, true⟩, ⟨"", [9], false, false⟩] .normal
    ⟨[], [], 0, 0, 0⟩ (by decide)

theorem receiveAudio_streams_replicate (shw : Bool) :
    ∀ ts s, (∀ t ∈ ts, turnOutcome t.responses t.endsWith = .completed) →
      (receiveAudio shw s (List.replicate ts.length true) ts).streamsOpened =
        s.streamsOpened + ts.length := by
  intro ts
  induction ts with
  | nil =>
    intro s h
    rfl
  | cons t ts ih =>
    intro s h
    have ht : turnOutcome t.responses t.endsWith = .completed :=
      h t (by simp)
    have h' : ∀ u ∈ ts, turnOutcome u.responses u.endsWith = .completed := by
      intro u hu
      exact h u (by simp [hu])
    rw [List.length_cons, List.replicate_succ]
    rw [receiveAudio.eq_def]
    simp only [runTurn_snd, ht]
    rw [ih _ h']
    have := runTurn_streams shw t.responses t.endsWith (openStream s)
    rw [this]
    simp [openStream]
    omega

/-- C5: a `turn_complete` event never ends the session or the playback
loop: while the run flag reads `true`, a stream that ends in
`turn_complete` only exits the inner loop, and the outer loop resumes
on the remaining turns of the same session; consequently, over any
session whose streams all end in `turn_complete`, the number of
`session.receive()` calls equals the number of turns — one session
carries them all sequentially. -/
theorem turn_continuity (shw : Bool) (s : PlayState) (flags : List Bool)
    (ts : List Turn) (t : Turn)
    (h : turnOutcome t.responses t.endsWith = .completed) :
    receiveAudio shw s (true :: flags) (t :: ts) =
      receiveAudio shw
        (runTurn shw (openStream s) t.responses t.endsWith).1 flags ts ∧
    ∀ us u, (∀ v ∈ us, turnOutcome v.responses v.endsWith = .completed) →
      (receiveAudio shw u (List.replicate us.length true) us).streamsOpened =
        u.streamsOpened + us.length := by
  constructor
  · rw [receiveAudio.eq_def]
    simp only [runTurn_snd, h]
  · exact fun us u hu => receiveAudio_streams_replicate shw us u hu

/-- C5 witness (three consecutive completed turns on one session). -/
theorem turn_continuity_witness :
    (receiveAudio true ⟨[], [], 0, 0, 0⟩ [true]
        [⟨[⟨"", [1, 2], false, true⟩], .normal⟩] =
      receiveAudio true
        (runTurn true (openStream ⟨[], [], 0, 0, 0⟩)
          [⟨"", [1, 2], false, true⟩] .normal).1 [] []) ∧
    (receiveAudio true ⟨[], [], 0, 0, 0⟩
        (List.replicate 3 true)
        [⟨[⟨"", [1, 2], false, true⟩], .normal⟩,
         ⟨[⟨"", [3], false, true⟩], .normal⟩,
         ⟨[⟨"", [4], false, true⟩], .normal⟩]).streamsOpened = 0 + 3 :=
  ⟨(turn_continuity true ⟨[], [], 0, 0, 0⟩ [] []
      ⟨[⟨"", [1, 2], false, true⟩], .normal⟩ (by decide)).1,
   (turn_continuity true ⟨[], [], 0, 0, 0⟩ [] []
      ⟨[⟨"", [1, 2], false, true⟩], .normal⟩ (by decide)).2
    [⟨[⟨"", [1, 2], false, true⟩], .normal⟩,
     ⟨[⟨"", [3], false, true⟩], .normal⟩,
     ⟨[⟨"", [4], false, true⟩], .normal⟩]
    ⟨[], [], 0, 0, 0⟩ (by decide)⟩

theorem receiveAudio_attempts_aux (shw : Bool) :
    ∀ n flags s ts, flags.length ≤ n →
      (receiveAudio shw s flags ts).attempts = s.attempts := by
  intro n
  induction n with
  | zero =>
    intro flags s ts h
    have : flags = [] := List.length_eq_zero.mp (Nat.le_zero.mp h)
    subst this
    rfl
  | succ n ih =>
    intro flags s ts h
    cases flags with
    | nil => rfl
    | cons b fs =>
      cases b with
      | false => rfl
      | true =>
        cases ts with
        | nil => rfl
        | cons t ts' =>
          have hlen : fs.length ≤ n := by
            simpa using h
          have hs' : (runTurn shw (openStream s) t.responses
              t.endsWith).1.attempts = s.attempts := by
            rw [runTurn_attempts]
            rfl
          rw [receiveAudio.eq_def]
          cases hout : turnOutcome t.responses t.endsWith with
          | completed =>
            simp only [runTurn_snd, hout]
            rw [ih fs _ ts' hlen, hs']
          | exhausted =>
            simp only [runTurn_snd, hout]
            rw [ih fs _ ts' hlen, hs']
          | errored =>
            cases fs with
            | nil =>
              simp only [runTurn_snd, hout]
              exact hs'
            | cons b' fs' =>
              cases b' with
              | false =>
                simp only [runTurn_snd, hout]
                simpa using hs'
              | true =>
                have hl2 : fs'.length ≤ n := by
                  simp at hlen
                  omega
                simp only [runTurn_snd, hout, if_true]
                rw [ih fs' _ ts' hl2]
                simpa [pauseBriefly] using hs'

theorem receiveAudio_attempts (shw : Bool) (s : PlayState)
    (flags : List Bool) (ts : List Turn) :
    (receiveAudio shw s flags ts).attempts = s.attempts :=
  receiveAudio_attempts_aux shw flags.length flags s ts (le_refl _)

/-- C6: when a `session.receive()` stream raises mid-turn and the run
flag still reads `true`, `receive_audio` pauses briefly (the 0.1 s
sleep) and resumes its outer loop — which re-opens the event stream on
the same session — and `connection_attempts` is never modified by
`receive_audio`, whatever the trace. -/
theorem stream_error_recovery (shw : Bool) (s : PlayState)
    (flags : List Bool) (ts : List Turn) (t : Turn)
    (h : turnOutcome t.responses t.endsWith = .errored) :
    receiveAudio shw s (true :: true :: flags) (t :: ts) =
      receiveAudio shw
        (pauseBriefly (runTurn shw (openStream s) t.responses t.endsWith).1)
        flags ts ∧
    (pauseBriefly
      (runTurn shw (openStream s) t.responses t.endsWith).1).pauses =
      s.pauses + 1 ∧
    ∀ fl tu st, (receiveAudio shw st fl tu).attempts =
      PlayState.attempts st := by
  refine ⟨?_, ?_, fun fl tu st => receiveAudio_attempts shw st fl tu⟩
  · rw [receiveAudio.eq_def]
    simp only [runTurn_snd, h, if_true]
  · simp only [pauseBriefly]
    rw [runTurn_pauses]
    rfl

/-- C6 witness. -/
theorem stream_error_recovery_witness :
    (receiveAudio false ⟨[], [], 0, 0, 5⟩ [true, true] [⟨[], .raised⟩] =
      receiveAudio false
        (pauseBriefly
          (runTurn false (openStream ⟨[], [], 0, 0, 5⟩) [] .raised).1)
        [] []) ∧
    (pauseBriefly
      (runTurn false (openStream ⟨[], [], 0, 0, 5⟩) [] .raised).1).pauses =
      0 + 1 :=
  ⟨(stream_error_recovery false ⟨[], [], 0, 0, 5⟩ [] [] ⟨[], .raised⟩
      (by decide)).1,
   (stream_error_recovery false ⟨[], [], 0, 0, 5⟩ [] [] ⟨[], .raised⟩
      (by decide)).2.1⟩

/-- One iteration's worth of external events for `send_audio`: the
blocking `input_stream.read` either returns a chunk (empty list for an
empty read, in which case the truthiness test skips the send and the
send-failure flag is irrelevant) together with whether the subsequent
`session.send_realtime_input` raises, or the read itself raises, or an
`asyncio.CancelledError` is delivered at an await point. -/
inductive CaptureStep where
  | frame : (data : List Nat) → (sendFails : Bool) → CaptureStep
  | readError : CaptureStep
  | cancelled : CaptureStep
deriving DecidableEq

/-- How `send_audio` came to return: the supplied trace ran out with
the loop still going (`pending`), the `while self.is_running` test
read `false` (`finishedLoop`), a `CancelledError` was caught by the
first `except` arm (`swallowedCancel`), or some other exception was
caught by the `except Exception` arm (`swallowedError`). -/
inductive CaptureOutcome where
  | pending : CaptureOutcome
  | finishedLoop : CaptureOutcome
  | swallowedCancel : CaptureOutcome
  | swallowedError : CaptureOutcome
deriving DecidableEq

/-- Observable result of `send_audio`: the chunks forwarded to the
session in order, how the coroutine ended, whether the
"Error in audio input" diagnostic was printed, and whether any
exception escaped `send_audio` to its caller (`asyncio.gather`). -/
structure CaptureResult where
  sent : List (List Nat)
  outcome : CaptureOutcome
  errorPrinted : Bool
  raisedToCaller : Bool
deriving DecidableEq

/-- Embedding of `send_audio` (lines 158-196), driven by the
successive readings of `is_running` (one per `while` test) and the
successive read/send events.  Both `except` arms catch without
re-raising: a `CancelledError` produces only a debug message, any
other exception prints the error diagnostic unconditionally — neither
arm consults `is_running`, and no exception propagates to the
caller. -/
def sendAudio : List Bool → List CaptureStep → List (List Nat) →
    CaptureResult
  | [], _, acc => ⟨acc, .pending, false, false⟩
  | false :: _, _, acc => ⟨acc, .finishedLoop, false, false⟩
  | true :: _, [], acc => ⟨acc, .pending, false, false⟩
  | true :: fs, st :: ss, acc =>
    match st with
    | .cancelled => ⟨acc, .swallowedCancel, false, false⟩
    | .readError => ⟨acc, .swallowedError, true, false⟩
    | .frame d sendF =>
      if d ≠ [] then
        if sendF then ⟨acc, .swallowedError, true, false⟩
        else sendAudio fs ss (acc ++ [d])
      else sendAudio fs ss acc

/-- C7 counterexample: a read error raised while the run flag reads
`true` is caught inside `send_audio`: the coroutine returns normally
(`raisedToCaller = false`), so the error is not reported upward to
`asyncio.gather` — it is printed and swallowed. -/
theorem capture_error_not_reported :
    sendAudio [true] [.readError] [] = ⟨[], .swallowedError, true, false⟩ ∧
    (sendAudio [true] [.readError] []).raisedToCaller = false := by
  constructor <;> rfl

/-- C7 amended: every error during read or send is caught at the
`send_audio` boundary: the coroutine always returns normally, never
propagating an exception to its caller, and a read or send failure
prints the error diagnostic regardless of the run flag (only
`CancelledError` is discarded without the diagnostic). -/
theorem capture_errors_swallowed :
    (∀ flags steps acc, (sendAudio flags steps acc).raisedToCaller = false) ∧
    (∀ fs ss acc, sendAudio (true :: fs) (CaptureStep.readError :: ss) acc =
      ⟨acc, .swallowedError, true, false⟩) ∧
    (∀ fs ss acc d, d ≠ [] →
      sendAudio (true :: fs) (CaptureStep.frame d true :: ss) acc =
        ⟨acc, .swallowedError, true, false⟩) := by
  refine ⟨?_, fun fs ss acc => rfl, ?_⟩
  · intro flags
    induction flags with
    | nil => intro steps acc; rfl
    | cons b fs ih =>
      intro steps acc
      cases b with
      | false => rfl
      | true =>
        cases steps with
        | nil => rfl
        | cons st ss =>
          cases st with
          | cancelled => rfl
          | readError => rfl
          | frame d sendF =>
            by_cases hd : d = []
            · simp [sendAudio, hd, ih]
            · cases sendF with
              | false => simp [sendAudio, hd, ih]
              | true => simp [sendAudio, hd]
  · intro fs ss acc d hd
    simp [sendAudio, hd]

/-- C7 amended witness. -/
theorem capture_errors_swallowed_witness :
    sendAudio (true :: []) (CaptureStep.frame [7] true :: []) [] =
      ⟨[], .swallowedError, true, false⟩ :=
  capture_errors_swallowed.2.2 [] [] [] [7] (by decide)

/-- The output-rate selection in `setup_audio_streams` (lines
113-117): `output_sample_rate = audio_config.get("output_sample_rate",
24000)`, then if it equals the configured input `sample_rate` it is
overridden to 24000 (Gemini returns audio at 24 kHz). -/
def output_sample_rate (configuredOut : Option Nat)
    (sample_rate : Nat) : Nat :=
  let rate := configuredOut.getD 24000
  if rate = sample_rate then 24000 else rate

/-- C9: a configured output rate equal to the configured input rate is
forced to 24000 Hz; a configured output rate different from the input
rate is used as-is; and with no configured output rate the default is
24000 Hz. -/
theorem output_rate_rules :
    (∀ r, output_sample_rate (some r) r = 24000) ∧
    (∀ o r, o ≠ r → output_sample_rate (some o) r = o) ∧
    (∀ r, output_sample_rate none r = 24000) := by
  refine ⟨fun r => ?_, fun o r h => ?_, fun r => ?_⟩
  · simp [output_sample_rate]
  · simp [output_sample_rate, h]
  · simp only [output_sample_rate, Option.getD_none]
    split <;> rfl

/-- C9 witness. -/
theorem output_rate_rules_witness :
    output_sample_rate (some 48000) 16000 = 48000 :=
  output_rate_rules.2.1 48000 16000 (by decide)
